import Mathlib

/-!
Verification of the job-definition and field/filter resolution core of the
pyeloqua Bulk API client (`pyeloqua/bulk.py`).

The embedding below is a shallow translation of `bulk.py`:
* Python field dicts become the `FieldDef` structure (only the keys the core
  reads: `internalName`, `name`, `statement`; other vendor metadata is
  opaque and never consulted).
* The mutable `Bulk.job` dict becomes the `Job` structure, passed and
  returned explicitly.  Builder methods that mutate the job return the
  post-call job even on failure, so "job unchanged on error" is statable.
* Network reads (`requests.get` + `req.json()`) become oracle functions
  passed as parameters: a page oracle for the paginated field catalog and
  record oracles for list / lead-score lookups.  `_elq_error_` (defined in
  `error_handling.py`, outside the studied sources) raising on a
  non-success HTTP status is modelled by letting an oracle return
  `Except.error .remoteError`.
* Exceptions become the `Err` inductive.  Deliberate `raise` sites are
  labelled with the error-taxonomy kind of the site (`configError`,
  `fieldNotFound`); failures of ordinary Python operations that the code
  never guards are kept distinct: `indexError` for `list[0]` on an empty
  list, `keyError` for a missing dict key, `unboundLocal` for reading a
  local variable no branch assigned.
* The in-place dict mutation in `add_linked_fields`
  (`field['statement'] = ...` on dicts aliased between the fetched list,
  `fields_output` and later `job['fields']`) is translated by resolving
  names to *indices* into the fetched list and threading the fetched list
  through the rewrite loop as explicit state; the function returns the
  post-call state of the fetched list alongside the job.
-/

/-- A field-definition record, as produced by the vendor JSON
(`internalName`, `name` = display name, `statement`). -/
structure FieldDef where
  internalName : String
  name : String
  statement : String
deriving DecidableEq, Repr

/-- The error kinds the core can signal.  The first four are the spec's
taxonomy; a deliberate `raise Exception(...)` site is labelled with the
kind of its site.  `keyError`, `indexError` and `unboundLocal` are
unguarded Python runtime failures (no `raise` site exists for them). -/
inductive Err where
  | configError
  | fieldNotFound (name : String)
  | notFound
  | remoteError
  | keyError
  | indexError
  | unboundLocal
deriving DecidableEq, Repr

/-- The `Bulk.job` dict.  (`options` is initialized to `{}` by `BLANK_JOB`
and never read or written by the operations studied here, so it is
omitted.) -/
structure Job where
  filters : List String
  fields : List FieldDef
  job_type : Option String
  elq_object : Option String
  obj_id : Option Nat
  act_type : Option String
deriving DecidableEq, Repr

/-- Constant `BLANK_JOB` from bulk.py: the state of a freshly constructed or
`reset()` job. -/
def BLANK_JOB : Job :=
  { filters := [], fields := [], job_type := none, elq_object := none,
    obj_id := none, act_type := none }

/-- Constant `OBJECT_REQ_ID`: kinds requiring an `obj_id`. -/
def OBJECT_REQ_ID : List String := ["customobjects", "events"]

/-- Constant `OBJECT_REQ_TYPE`: kinds requiring an `act_type`. -/
def OBJECT_REQ_TYPE : List String := ["activities"]

/-- Constant `ELQ_OBJECTS`: the closed enum of supported object kinds. -/
def ELQ_OBJECTS : List String :=
  ["accounts", "activities", "contacts", "customobjects", "emailaddresses",
   "events"]

/-- Method `Bulk._setup_` (bulk.py lines 60-82): validate, then record the job
parameters.  The three `raise` sites are validation failures, labelled
`configError`.  (In the first site the message template
`'invalid elq_object \x27$s\x27' % elq_object` even mis-formats at
runtime - `$s` is not a conversion - but the site is still the
invalid-kind validation failure.)  On failure the job is returned
unchanged, since the `raise` precedes every assignment. -/
def setupJob (job_type elq_object : String) (obj_id : Option Nat)
    (act_type : Option String) (job : Job) : Except Err Unit × Job :=
  if ¬ ELQ_OBJECTS.contains elq_object then
    (.error .configError, job)
  else if OBJECT_REQ_ID.contains elq_object ∧ obj_id = none then
    (.error .configError, job)
  else if OBJECT_REQ_TYPE.contains elq_object ∧ act_type = none then
    (.error .configError, job)
  else
    (.ok (), { job with job_type := some job_type,
                        elq_object := some elq_object,
                        obj_id := obj_id,
                        act_type := act_type })

/-- One JSON page of the paginated fields endpoint: `items` and `hasMore`. -/
structure FieldPage where
  items : List FieldDef
  hasMore : Bool
deriving DecidableEq, Repr

/-- The `while has_more` pagination loop of `Bulk.get_fields` (bulk.py
lines 147-161).  `reqPage offset` models `requests.get` on the URL built
with that offset followed by `_elq_error_` and `req.json()`; a
`.error .remoteError` result is `_elq_error_` raising on a non-success
status.  The loop is given fuel; `none` means the fuel ran out, i.e. the
Python loop would still be running after that many pages. -/
def getFieldsLoop (reqPage : Nat → Except Err FieldPage) :
    Nat → Nat → Option (Except Err (List FieldDef))
  | 0, _ => none
  | fuel + 1, offset =>
    match reqPage offset with
    | .error e => some (.error e)
    | .ok page =>
      if page.hasMore then
        match getFieldsLoop reqPage fuel (offset + 1) with
        | none => none
        | some (.error e) => some (.error e)
        | some (.ok rest) => some (.ok (page.items ++ rest))
      else
        some (.ok page.items)

/-- Method `Bulk.get_fields` (bulk.py lines 114-161).  `actTable` models the
`ACTIVITY_FIELDS` static table from `system_fields.py` (external
reference data, contents opaque here); looking up a key it does not hold
is a Python `KeyError`.  When `elq_object` is `none` the method falls
back to the job's stored object/id/type.  For `activities` the static
table is consulted and `reqPage` is never used; otherwise the pagination
loop runs from offset 0. -/
def getFields (actTable : String → Option (List FieldDef))
    (reqPage : Nat → Except Err FieldPage) (fuel : Nat)
    (elq_object : Option String) (obj_id : Option Nat)
    (act_type : Option String) (job : Job) :
    Option (Except Err (List FieldDef)) :=
  let args :=
    match elq_object with
    | none => (job.elq_object, job.obj_id, job.act_type)
    | some e => (some e, obj_id, act_type)
  if args.1 = some "activities" then
    some (match args.2.2 with
      | none => .error .keyError
      | some t =>
        match actTable t with
        | none => .error .keyError
        | some l => .ok l)
  else
    getFieldsLoop reqPage fuel 0

/-- The match test of `Bulk.add_fields` (bulk.py lines 183-190): outside
`activities` a caller name matches on `internalName` or `name` (display
name); for `activities` on `name` only.  String `==` is Python's
case-sensitive string equality. -/
def fieldMatches (activities : Bool) (field_name : String) (f : FieldDef) :
    Bool :=
  if ¬ activities then
    field_name == f.internalName || field_name == f.name
  else
    field_name == f.name

/-- The inner `for field in fields` loop of `add_fields` for one caller
name: append every matching catalog entry as it is scanned and keep the
sticky `match` flag. -/
def scanFields (activities : Bool) (field_name : String)
    (catalog : List FieldDef) : List FieldDef × Bool :=
  catalog.foldl
    (fun acc f =>
      if fieldMatches activities field_name f then (acc.1 ++ [f], true)
      else acc)
    ([], false)

/-- The outer `for field_name in field_input` loop of `add_fields`
(bulk.py lines 180-192): process names in order, raising
`field not found: <name>` at the first name whose scan found no match;
on success return the accumulated `fields_output`. -/
def resolveFields (activities : Bool) (field_input : List String)
    (catalog : List FieldDef) : Except Err (List FieldDef) :=
  match field_input with
  | [] => .ok []
  | n :: rest =>
    let s := scanFields activities n catalog
    if s.2 then
      match resolveFields activities rest catalog with
      | .error e => .error e
      | .ok out => .ok (s.1 ++ out)
    else
      .error (.fieldNotFound n)

/-- Method `Bulk.add_fields` (bulk.py lines 163-194).  The fetched catalog comes
from `get_fields()` with no arguments (job defaults).  With no
`field_input` the whole catalog is appended; otherwise the resolved
`fields_output` is appended only after every name resolved, since the
`raise` inside the loop skips the final `extend`. -/
def addFields (actTable : String → Option (List FieldDef))
    (reqPage : Nat → Except Err FieldPage) (fuel : Nat)
    (field_input : Option (List String)) (job : Job) :
    Option (Except Err Unit × Job) :=
  match getFields actTable reqPage fuel none none none job with
  | none => none
  | some (.error e) => some (.error e, job)
  | some (.ok fields) =>
    match field_input with
    | none => some (.ok (), { job with fields := job.fields ++ fields })
    | some names =>
      match resolveFields (job.elq_object == some "activities") names fields with
      | .error e => some (.error e, job)
      | .ok fields_output =>
        some (.ok (), { job with fields := job.fields ++ fields_output })

/-- Method `Bulk.add_system_fields` (bulk.py lines 196-225).  `fieldset` is
assigned only in the `contacts` and `accounts` branches; for every other
`elq_object` its first use raises Python's unbound-local error before the
job is touched.  The name loop matches on `name` only, i.e. the
`activities` variant of `resolveFields`. -/
def addSystemFields (contactSystemFields accountSystemFields : List FieldDef)
    (field_input : Option (List String)) (job : Job) :
    Except Err Unit × Job :=
  let fieldset? : Option (List FieldDef) :=
    if job.elq_object == some "contacts" then some contactSystemFields
    else if job.elq_object == some "accounts" then some accountSystemFields
    else none
  match fieldset? with
  | none => (.error .unboundLocal, job)
  | some fieldset =>
    match field_input with
    | none => (.ok (), { job with fields := job.fields ++ fieldset })
    | some names =>
      match resolveFields true names fieldset with
      | .error e => (.error e, job)
      | .ok out => (.ok (), { job with fields := job.fields ++ out })

/-- Index-level variant of the `add_fields` match scan, used for
`add_linked_fields` where the appended entries are *aliases* of the
fetched list's dicts: the scan records the positions of the matches in
the fetched list.  The match test is the same `internalName` or `name`
test (bulk.py line 242; no activities special case here). -/
def scanFieldsIdx (field_name : String) (catalog : List FieldDef) :
    List Nat × Bool :=
  catalog.enum.foldl
    (fun acc p =>
      if field_name == p.2.internalName || field_name == p.2.name then
        (acc.1 ++ [p.1], true)
      else acc)
    ([], false)

/-- The name-resolution loop of `add_linked_fields` (bulk.py lines
239-246), at index level: first unmatched name raises
`field not found: <name>`. -/
def resolveFieldsIdx (field_input : List String) (catalog : List FieldDef) :
    Except Err (List Nat) :=
  match field_input with
  | [] => .ok []
  | n :: rest =>
    let s := scanFieldsIdx n catalog
    if s.2 then
      match resolveFieldsIdx rest catalog with
      | .error e => .error e
      | .ok out => .ok (s.1 ++ out)
    else
      .error (.fieldNotFound n)

/-- Python `'%s' % obj_id` on the stored `obj_id`: `None` prints as
`None`, an int in decimal. -/
def pyFmtOptNat : Option Nat → String
  | none => "None"
  | some n => toString n

/-- Scanner for `pyReplace`: walk the text left to right; while the skip
counter is positive the character belongs to an already-matched
occurrence and is dropped; at skip 0, a position where the pattern is a
prefix emits the replacement and skips the rest of the occurrence, so
occurrences are non-overlapping and the replacement text is not
rescanned - exactly Python's `str.replace` search order. -/
def replaceAux (pat rep : List Char) : List Char → Nat → List Char
  | [], _ => []
  | c :: cs, 0 =>
    if pat.isPrefixOf (c :: cs) then
      rep ++ replaceAux pat rep cs (pat.length - 1)
    else
      c :: replaceAux pat rep cs 0
  | _ :: cs, k + 1 => replaceAux pat rep cs k

/-- Python `s.replace(pat, rep)` for a non-empty pattern: substitute
every non-overlapping occurrence, scanning left to right.  (The empty
pattern, which Python treats specially, never occurs in bulk.py.) -/
def pyReplace (s pat rep : String) : String :=
  if pat.data.isEmpty then s
  else ⟨replaceAux pat.data rep.data s.data 0⟩

/-- The statement rewrite of `add_linked_fields` (bulk.py lines 248-258)
for one field, keyed on the (linked kind, current kind) pair.  Python's
`str.replace` substitutes every non-overlapping occurrence of the
pattern (`pyReplace`). -/
def rewriteStmt (lnk_obj : String) (elq_object : Option String)
    (obj_id : Option Nat) (s : String) : String :=
  if lnk_obj == "contacts" then
    if elq_object == some "customobjects" then
      pyReplace s "Contact." ("CustomObject[" ++ pyFmtOptNat obj_id ++ "].Contact.")
    else if elq_object == some "events" then
      pyReplace s "Contact." ("Event[" ++ pyFmtOptNat obj_id ++ "].Contact.")
    else s
  else if lnk_obj == "accounts" then
    pyReplace s "Account." "Contact.Account."
  else s

/-- Update the element at one position of a list, if it exists. -/
def modifyAt {α : Type} (i : Nat) (g : α → α) : List α → List α
  | [] => []
  | x :: xs =>
    match i with
    | 0 => g x :: xs
    | j + 1 => x :: modifyAt j g xs

/-- The `for field in fields_output` rewrite loop of `add_linked_fields`
(bulk.py lines 248-258): each entry of `fields_output` is a reference
into the fetched list, so `field['statement'] = ...` updates the fetched
list in place at that entry's position - once per occurrence of the
position in `idxs`. -/
def applyRewrites (lnk_obj : String) (elq_object : Option String)
    (obj_id : Option Nat) (idxs : List Nat) (catalog : List FieldDef) :
    List FieldDef :=
  idxs.foldl
    (fun cat i =>
      modifyAt i
        (fun f => { f with statement := rewriteStmt lnk_obj elq_object obj_id f.statement })
        cat)
    catalog

/-- Method `Bulk.add_linked_fields` after the fetch (bulk.py lines 237-260):
resolve the caller names to positions in the fetched list, run the
rewrite loop over those positions (mutating the fetched list in place),
then extend the job's fields with the dicts at those positions - the
same, now rewritten, records.  Returns the post-call state of the fetched
list alongside the job. -/
def addLinkedFieldsCore (lnk_obj : String) (field_input : List String)
    (fields : List FieldDef) (job : Job) :
    Except Err Unit × List FieldDef × Job :=
  match resolveFieldsIdx field_input fields with
  | .error e => (.error e, fields, job)
  | .ok idxs =>
    let fields2 := applyRewrites lnk_obj job.elq_object job.obj_id idxs fields
    (.ok (), fields2,
      { job with fields := job.fields ++ idxs.filterMap (fun i => fields2[i]?) })

/-- Method `Bulk.add_linked_fields` (bulk.py lines 227-260): fetch the linked
object's fields via `get_fields(elq_object=lnk_obj)` (so `obj_id` and
`act_type` default to `None`), then run the core.  On a fetch error no
fetched list exists and the job is untouched. -/
def addLinkedFields (actTable : String → Option (List FieldDef))
    (reqPage : Nat → Except Err FieldPage) (fuel : Nat) (lnk_obj : String)
    (field_input : List String) (job : Job) :
    Option (Except Err Unit × List FieldDef × Job) :=
  match getFields actTable reqPage fuel (some lnk_obj) none none job with
  | none => none
  | some (.error e) => some (.error e, [], job)
  | some (.ok fields) => some (addLinkedFieldsCore lnk_obj field_input fields job)

/-- A shared-list record: only its `statement` key is read. -/
structure ListRec where
  statement : String
deriving DecidableEq, Repr

/-- A lead-score model record: only its `fields` key is read. -/
structure ScoreModel where
  fields : List FieldDef
deriving DecidableEq, Repr

/-- Python `name.replace(' ', '*')`: the space-to-wildcard transform used
in the `q="name=..."` search URLs (bulk.py lines 280 and 313). -/
def pyStarName (name : String) : String := pyReplace name " " "*"

/-- Method `Bulk.filter_exists_list` (bulk.py lines 288-323).  `listById id`
models the GET on `/{obj}/lists/{id}`; `listSearch q` models the GET on
`/{obj}/lists?q="name=<q>"` returning the `items` array; both run
`_elq_error_` first (a `.error` result).  By name, the code takes
`items[0]` with no emptiness guard, so an empty result is a Python
`IndexError`.  With neither argument the final `raise` is the
either/or-validation site. -/
def filterExistsList (listById : Nat → Except Err ListRec)
    (listSearch : String → Except Err (List ListRec))
    (list_id : Option Nat) (name : Option String) (job : Job) :
    Except Err Unit × Job :=
  match list_id with
  | some lid =>
    match listById lid with
    | .error e => (.error e, job)
    | .ok r =>
      (.ok (), { job with
        filters := job.filters ++ [" EXISTS('" ++ r.statement ++ "') "] })
  | none =>
    match name with
    | some nm =>
      match listSearch (pyStarName nm) with
      | .error e => (.error e, job)
      | .ok [] => (.error .indexError, job)
      | .ok (r :: _) =>
        (.ok (), { job with
          filters := job.filters ++ [" EXISTS('" ++ r.statement ++ "') "] })
    | none => (.error .configError, job)

/-- Method `Bulk.add_leadscore_fields` (bulk.py lines 262-286), the same
either/or shape: by id the model's `fields` are appended verbatim; by
name the search result's `items[0]['fields']` are appended, so an empty
result is a Python `IndexError`; with neither argument the final `raise`
is the either/or-validation site. -/
def addLeadscoreFields (modelById : Nat → Except Err ScoreModel)
    (modelSearch : String → Except Err (List ScoreModel))
    (model_id : Option Nat) (name : Option String) (job : Job) :
    Except Err Unit × Job :=
  match model_id with
  | some mid =>
    match modelById mid with
    | .error e => (.error e, job)
    | .ok m => (.ok (), { job with fields := job.fields ++ m.fields })
  | none =>
    match name with
    | some nm =>
      match modelSearch (pyStarName nm) with
      | .error e => (.error e, job)
      | .ok [] => (.error .indexError, job)
      | .ok (m :: _) => (.ok (), { job with fields := job.fields ++ m.fields })
    | none => (.error .configError, job)

/-! Concrete inputs used to instantiate the theorems below.  They mirror
the spec's own examples and the repository's test fixtures. -/

/-- A one-entry contact-field catalog: the spec's linked-field example. -/
def exCatalog : List FieldDef :=
  [{ internalName := "C_EmailAddress", name := "Email Address",
     statement := "Contact.Field[Email Address]" }]

/-- A two-entry catalog whose entries share the display name
`Email Address`. -/
def exCatalogDup : List FieldDef :=
  [{ internalName := "C_Email1", name := "Email Address", statement := "s1" },
   { internalName := "C_Email2", name := "Email Address", statement := "s2" }]

/-- An exports job on `customobjects` with parent id 5 (as produced by
`exports('customobjects', obj_id=5)`). -/
def exJob : Job :=
  { BLANK_JOB with job_type := some "exports",
                   elq_object := some "customobjects", obj_id := some 5 }

/-- An exports job on `contacts`. -/
def exJobContacts : Job :=
  { BLANK_JOB with job_type := some "exports", elq_object := some "contacts" }

/-- A three-page field catalog: pages 0 and 1 report `hasMore`, page 2
does not. -/
def exPages : Nat → FieldPage := fun i =>
  { items := [{ internalName := "f" ++ toString i, name := "F " ++ toString i,
                statement := "S" ++ toString i }],
    hasMore := decide (i < 2) }

/-- Page oracle serving `exPages` with success status. -/
def exReqPage : Nat → Except Err FieldPage := fun i => .ok (exPages i)

/-- An empty activity table (never consulted by the pagination path). -/
def exActTable : String → Option (List FieldDef) := fun _ => none

/-- An activity table holding one activity type. -/
def exActTable2 : String → Option (List FieldDef) := fun t =>
  if t == "EmailOpen" then some exCatalog else none

/-- A page oracle serving `exCatalogDup` in a single page. -/
def exReqPageDup : Nat → Except Err FieldPage := fun _ =>
  .ok { items := exCatalogDup, hasMore := false }

/-- The shared-list record of the repository's test fixture
(`statement` = `\x7b\x7bContactList[1]\x7d\x7d`). -/
def exListRec : ListRec := { statement := "\x7b\x7bContactList[1]\x7d\x7d" }

/-- ID lookup oracle: list 1 is the fixture record. -/
def exListById : Nat → Except Err ListRec := fun i =>
  if i == 1 then .ok exListRec else .error .remoteError

/-- Search oracle: the starred query `Test*List*1` finds the fixture
record, anything else finds nothing. -/
def exListSearch : String → Except Err (List ListRec) := fun q =>
  if q == "Test*List*1" then .ok [exListRec] else .ok []

/-- Search oracle returning zero items for every query. -/
def exEmptyListSearch : String → Except Err (List ListRec) := fun _ => .ok []

/-- Lead-score model search oracle returning zero items. -/
def exEmptyModelSearch : String → Except Err (List ScoreModel) := fun _ => .ok []

/-- Lead-score model ID oracle (never consulted in the witnesses). -/
def exModelById : Nat → Except Err ScoreModel := fun _ => .error .remoteError

/-- The job state after appending both duplicate-name catalog entries. -/
def exJobContactsAfter : Job := { exJobContacts with fields := exCatalogDup }

/-! Helper lemmas. -/

/-- Unrolling the `add_fields` inner scan from any accumulator: the
appended matches are the catalog entries satisfying the match test, in
catalog order, and the flag records whether any entry matched. -/
lemma scanFields_go (activities : Bool) (n : String) (catalog : List FieldDef)
    (out : List FieldDef) (flag : Bool) :
    catalog.foldl
      (fun acc f =>
        if fieldMatches activities n f then (acc.1 ++ [f], true) else acc)
      (out, flag) =
    (out ++ catalog.filter (fieldMatches activities n),
     flag || catalog.any (fieldMatches activities n)) := by
  induction catalog generalizing out flag with
  | nil => simp
  | cons f rest ih =>
    by_cases h : fieldMatches activities n f
    · simp [List.foldl_cons, List.filter_cons, List.any_cons, h, ih]
    · simp [List.foldl_cons, List.filter_cons, List.any_cons, h, ih]

/-- The inner scan of `add_fields`, closed form. -/
lemma scanFields_eq (activities : Bool) (n : String)
    (catalog : List FieldDef) :
    scanFields activities n catalog =
      (catalog.filter (fieldMatches activities n),
       catalog.any (fieldMatches activities n)) := by
  simpa [scanFields] using scanFields_go activities n catalog [] false

/-- When every caller name has at least one match, `add_fields` name
resolution succeeds and returns, name by name, every matching catalog
entry in catalog order. -/
lemma resolveFields_ok (activities : Bool) (names : List String)
    (catalog : List FieldDef)
    (h : ∀ n ∈ names, catalog.any (fieldMatches activities n) = true) :
    resolveFields activities names catalog =
      .ok ((names.map
        (fun n => catalog.filter (fieldMatches activities n))).flatten) := by
  induction names with
  | nil => simp [resolveFields]
  | cons n rest ih =>
    have hn : catalog.any (fieldMatches activities n) = true := h n (by simp)
    have hrest := ih (fun m hm => h m (by simp [hm]))
    simp [resolveFields, scanFields_eq, hn, hrest]

/-- When some caller name has no match, `add_fields` name resolution
fails with `field not found` naming an unmatched name from the input. -/
lemma resolveFields_err (activities : Bool) (names : List String)
    (catalog : List FieldDef) (n : String) (hn : n ∈ names)
    (hz : catalog.any (fieldMatches activities n) = false) :
    ∃ m ∈ names, catalog.any (fieldMatches activities m) = false ∧
      resolveFields activities names catalog = .error (.fieldNotFound m) := by
  induction names with
  | nil => cases hn
  | cons n0 rest ih =>
    by_cases h0 : catalog.any (fieldMatches activities n0) = true
    · have hn' : n ∈ rest := by
        rcases List.mem_cons.mp hn with h | h
        · subst h; rw [h0] at hz; cases hz
        · exact h
      obtain ⟨m, hm, hzm, hres⟩ := ih hn'
      exact ⟨m, by simp [hm], hzm,
        by simp [resolveFields, scanFields_eq, h0, hres]⟩
    · have h0' : catalog.any (fieldMatches activities n0) = false :=
        Bool.eq_false_iff.mpr h0
      exact ⟨n0, by simp, h0',
        by simp [resolveFields, scanFields_eq, h0']⟩

/-- The pagination loop, run from any offset: if the page at relative
index `n` is the first one not reporting `hasMore` and every request up
to it succeeds, the loop with more than `n` fuel returns the
concatenation of the `n + 1` pages' items in fetch order. -/
lemma getFieldsLoop_concat (reqPage : Nat → Except Err FieldPage)
    (pages : Nat → FieldPage) :
    ∀ (n off fuel : Nat),
      (∀ i, i ≤ n → reqPage (off + i) = .ok (pages (off + i))) →
      (∀ i, i < n → (pages (off + i)).hasMore = true) →
      (pages (off + n)).hasMore = false →
      n < fuel →
      getFieldsLoop reqPage fuel off =
        some (.ok (((List.range (n + 1)).map
          (fun i => (pages (off + i)).items)).flatten)) := by
  intro n
  induction n with
  | zero =>
    intro off fuel h _ hlast hf
    match fuel, hf with
    | fuel + 1, _ =>
      have h0 : reqPage off = .ok (pages off) := by simpa using h 0 (le_refl 0)
      have hl : (pages off).hasMore = false := by simpa using hlast
      simp [getFieldsLoop, h0, hl, List.range_succ]
  | succ n ih =>
    intro off fuel h hm hlast hf
    match fuel, hf with
    | fuel + 1, hf =>
      have h0 : reqPage off = .ok (pages off) := by
        simpa using h 0 (Nat.zero_le _)
      have hm0 : (pages off).hasMore = true := by
        simpa using hm 0 (Nat.succ_pos n)
      have hrec := ih (off + 1) fuel
        (fun i hi => by
          have := h (i + 1) (Nat.succ_le_succ hi)
          simpa [Nat.add_assoc, Nat.add_comm 1 i] using this)
        (fun i hi => by
          have := hm (i + 1) (Nat.succ_lt_succ hi)
          simpa [Nat.add_assoc, Nat.add_comm 1 i] using this)
        (by
          have : off + (n + 1) = off + 1 + n := by omega
          rwa [this] at hlast)
        (Nat.lt_of_succ_lt_succ hf)
      have hshift :
          ((List.range (n + 1)).map
            (fun i => (pages (off + 1 + i)).items)).flatten =
          ((List.range (n + 1)).map
            (fun i => (pages (off + (i + 1))).items)).flatten := by
        congr 1
        apply List.map_congr_left
        intro i _
        congr 2
        omega
      rw [getFieldsLoop, h0]
      simp only [hm0, if_true, hrec, hshift]
      have hjoin :
          ((List.range (n + 1 + 1)).map
            (fun i => (pages (off + i)).items)).flatten =
          (pages (off + 0)).items ++
            ((List.range (n + 1)).map
              (fun i => (pages (off + (i + 1))).items)).flatten := by
        rw [List.range_succ_eq_map]
        simp [List.map_map, Function.comp_def, Nat.succ_eq_add_one]
      simp [hjoin]

/-- Reading the modified position. -/
lemma modifyAt_getElem_self {α : Type} (g : α → α) :
    ∀ (i : Nat) (l : List α), (modifyAt i g l)[i]? = (l[i]?).map g := by
  intro i l
  induction l generalizing i with
  | nil => simp [modifyAt]
  | cons x xs ih =>
    cases i with
    | zero => simp [modifyAt]
    | succ j => simp [modifyAt, ih]

/-- Reading any other position. -/
lemma modifyAt_getElem_ne {α : Type} (g : α → α) :
    ∀ (i j : Nat), j ≠ i → ∀ (l : List α), (modifyAt i g l)[j]? = l[j]? := by
  intro i j hne l
  induction l generalizing i j with
  | nil => simp [modifyAt]
  | cons x xs ih =>
    cases i with
    | zero =>
      cases j with
      | zero => exact absurd rfl hne
      | succ j' => simp [modifyAt]
    | succ i' =>
      cases j with
      | zero => simp [modifyAt]
      | succ j' => simpa [modifyAt] using ih i' j' (fun e => hne (by rw [e]))

/-- One step of the `add_linked_fields` rewrite loop. -/
lemma applyRewrites_cons (lnk_obj : String) (elq_object : Option String)
    (obj_id : Option Nat) (j : Nat) (rest : List Nat)
    (catalog : List FieldDef) :
    applyRewrites lnk_obj elq_object obj_id (j :: rest) catalog =
      applyRewrites lnk_obj elq_object obj_id rest
        (modifyAt j
          (fun f =>
            { f with statement := rewriteStmt lnk_obj elq_object obj_id f.statement })
          catalog) := by
  simp [applyRewrites]

/-- Positions never resolved are untouched by the rewrite loop. -/
lemma applyRewrites_getElem_not_mem (lnk_obj : String)
    (elq_object : Option String) (obj_id : Option Nat) :
    ∀ (idxs : List Nat) (catalog : List FieldDef) (i : Nat), i ∉ idxs →
      (applyRewrites lnk_obj elq_object obj_id idxs catalog)[i]? =
        catalog[i]? := by
  intro idxs
  induction idxs with
  | nil => intro catalog i _; simp [applyRewrites]
  | cons j rest ih =>
    intro catalog i hi
    rw [applyRewrites_cons]
    rw [ih _ i (fun h => hi (List.mem_cons_of_mem j h))]
    exact modifyAt_getElem_ne _ j i (fun e => hi (e ▸ List.mem_cons_self j rest)) catalog

/-- A position resolved exactly once holds the rewrite of its original
record after the loop. -/
lemma applyRewrites_getElem_mem (lnk_obj : String)
    (elq_object : Option String) (obj_id : Option Nat) :
    ∀ (idxs : List Nat), idxs.Nodup →
      ∀ (catalog : List FieldDef) (i : Nat), i ∈ idxs →
      (applyRewrites lnk_obj elq_object obj_id idxs catalog)[i]? =
        (catalog[i]?).map
          (fun f =>
            { f with statement := rewriteStmt lnk_obj elq_object obj_id f.statement }) := by
  intro idxs
  induction idxs with
  | nil => intro _ _ i hi; cases hi
  | cons j rest ih =>
    intro hnd catalog i hi
    rw [applyRewrites_cons]
    rcases List.mem_cons.mp hi with h | h
    · subst h
      rw [applyRewrites_getElem_not_mem _ _ _ rest _ i (List.nodup_cons.mp hnd).1]
      exact modifyAt_getElem_self _ i catalog
    · rw [ih (List.nodup_cons.mp hnd).2 _ i h]
      rw [modifyAt_getElem_ne _ j i
        (fun e => (List.nodup_cons.mp hnd).1 (e ▸ h)) catalog]

/-- Unrolling the index-level scan from any accumulator. -/
lemma scanFieldsIdx_go (n : String) (l : List (Nat × FieldDef))
    (out : List Nat) (flag : Bool) :
    l.foldl
      (fun acc p =>
        if n == p.2.internalName || n == p.2.name then (acc.1 ++ [p.1], true)
        else acc)
      (out, flag) =
    (out ++ (l.filter
        (fun p => n == p.2.internalName || n == p.2.name)).map Prod.fst,
     flag || l.any (fun p => n == p.2.internalName || n == p.2.name)) := by
  induction l generalizing out flag with
  | nil => simp
  | cons p rest ih =>
    cases h : (n == p.2.internalName || n == p.2.name : Bool) with
    | true =>
      rw [List.foldl_cons]
      simp only [List.filter_cons, List.any_cons, h, if_true, ih]
      simp
    | false =>
      rw [List.foldl_cons]
      simp only [List.filter_cons, List.any_cons, h, if_false, ih]
      simp

/-- The index-level scan of `add_linked_fields`, closed form. -/
lemma scanFieldsIdx_eq (n : String) (catalog : List FieldDef) :
    scanFieldsIdx n catalog =
      ((catalog.enum.filter
          (fun p => n == p.2.internalName || n == p.2.name)).map Prod.fst,
       catalog.enum.any (fun p => n == p.2.internalName || n == p.2.name)) := by
  simpa [scanFieldsIdx] using scanFieldsIdx_go n catalog.enum [] false

/-- Every index the scan records points into the catalog. -/
lemma scanFieldsIdx_bounds (n : String) (catalog : List FieldDef) (i : Nat)
    (hi : i ∈ (scanFieldsIdx n catalog).1) : i < catalog.length := by
  rw [scanFieldsIdx_eq] at hi
  simp only [List.mem_map] at hi
  obtain ⟨p, hp, rfl⟩ := hi
  exact List.fst_lt_of_mem_enum (List.mem_of_mem_filter hp)

/-- Every index a successful `add_linked_fields` resolution returns
points into the fetched list. -/
lemma resolveFieldsIdx_bounds (names : List String) (catalog : List FieldDef)
    (idxs : List Nat)
    (h : resolveFieldsIdx names catalog = .ok idxs) :
    ∀ i ∈ idxs, i < catalog.length := by
  induction names generalizing idxs with
  | nil =>
    simp [resolveFieldsIdx] at h
    subst h
    intro i hi
    cases hi
  | cons n rest ih =>
    rw [resolveFieldsIdx] at h
    by_cases hs : (scanFieldsIdx n catalog).2
    · rw [if_pos hs] at h
      cases hr : resolveFieldsIdx rest catalog with
      | error e => rw [hr] at h; cases h
      | ok out =>
        rw [hr] at h
        cases h
        intro i hi
        rcases List.mem_append.mp hi with hi | hi
        · exact scanFieldsIdx_bounds n catalog i hi
        · exact ih out hr i hi
    · rw [if_neg hs] at h
      cases h

/-! Claim theorems. -/

/-- C5: the job setup operation fails with ConfigurationError when the
supplied object kind is not in the closed enum `ELQ_OBJECTS`, or when
the kind requires a parent id (`customobjects`, `events`) and none is
given, or when the kind requires an activity type (`activities`) and
none is given; otherwise it records job_type, object_type, parent_id and
activity_type exactly as given on the Job. -/
theorem setup_validates_and_records (job_type elq_object : String)
    (obj_id : Option Nat) (act_type : Option String) (job : Job) :
    (elq_object ∉ ELQ_OBJECTS →
      setupJob job_type elq_object obj_id act_type job =
        (.error .configError, job)) ∧
    (elq_object ∈ OBJECT_REQ_ID → obj_id = none →
      setupJob job_type elq_object obj_id act_type job =
        (.error .configError, job)) ∧
    (elq_object ∈ OBJECT_REQ_TYPE → act_type = none →
      setupJob job_type elq_object obj_id act_type job =
        (.error .configError, job)) ∧
    (elq_object ∈ ELQ_OBJECTS →
      (elq_object ∈ OBJECT_REQ_ID → obj_id ≠ none) →
      (elq_object ∈ OBJECT_REQ_TYPE → act_type ≠ none) →
      setupJob job_type elq_object obj_id act_type job =
        (.ok (), { job with job_type := some job_type,
                            elq_object := some elq_object,
                            obj_id := obj_id, act_type := act_type })) := by
  refine ⟨fun h => ?_, fun h1 h2 => ?_, fun h1 h2 => ?_, fun h1 h2 h3 => ?_⟩
  · simp [setupJob, List.contains, List.elem_eq_mem, h]
  · have h4 : elq_object ∈ ELQ_OBJECTS := by
      simp only [OBJECT_REQ_ID, List.mem_cons, List.not_mem_nil, or_false] at h1
      rcases h1 with rfl | rfl <;> simp [ELQ_OBJECTS]
    simp [setupJob, List.contains, List.elem_eq_mem, h1, h2, h4]
  · have h4 : elq_object ∈ ELQ_OBJECTS := by
      simp only [OBJECT_REQ_TYPE, List.mem_cons, List.not_mem_nil,
        or_false] at h1
      subst h1; simp [ELQ_OBJECTS]
    by_cases h5 : elq_object ∈ OBJECT_REQ_ID ∧ obj_id = none
    · simp [setupJob, List.contains, List.elem_eq_mem, h4, h5]
    · simp [setupJob, List.contains, List.elem_eq_mem, h1, h2, h4, h5]
  · have hA : ¬ (elq_object ∈ OBJECT_REQ_ID ∧ obj_id = none) :=
      fun hc => h2 hc.1 hc.2
    have hB : ¬ (elq_object ∈ OBJECT_REQ_TYPE ∧ act_type = none) :=
      fun hc => h3 hc.1 hc.2
    simp [setupJob, List.contains, List.elem_eq_mem, h1, hA, hB]

/-- C5 witness: `customobjects` without a parent id fails, with a parent
id the parameters are stored exactly; an unknown kind fails. -/
theorem setup_validates_and_records_witness :
    setupJob "exports" "customobjects" none none BLANK_JOB =
      (.error .configError, BLANK_JOB) ∧
    setupJob "exports" "customobjects" (some 5) none BLANK_JOB =
      (.ok (), exJob) ∧
    setupJob "exports" "widgets" none none BLANK_JOB =
      (.error .configError, BLANK_JOB) := by
  refine ⟨?_, ?_, ?_⟩
  · exact (setup_validates_and_records "exports" "customobjects" none none
      BLANK_JOB).2.1 (by decide) rfl
  · have h := (setup_validates_and_records "exports" "customobjects" (some 5)
      none BLANK_JOB).2.2.2 (by decide) (fun _ => by decide)
      (fun hm => absurd hm (by decide))
    simpa [BLANK_JOB, exJob] using h
  · exact (setup_validates_and_records "exports" "widgets" none none
      BLANK_JOB).1 (by decide)

/-- C10: calling `add_system_fields` while the job's object kind is
neither `contacts` nor `accounts` (including a blank job) never selects
a system-field set: it fails with the unbound-local-variable error -
an error distinct from every kind in the spec's taxonomy - and the job
is untouched. -/
theorem add_system_fields_unbound_local
    (contactSystemFields accountSystemFields : List FieldDef)
    (field_input : Option (List String)) (job : Job)
    (h1 : job.elq_object ≠ some "contacts")
    (h2 : job.elq_object ≠ some "accounts") :
    addSystemFields contactSystemFields accountSystemFields field_input job =
      (.error .unboundLocal, job) ∧
    Err.unboundLocal ≠ Err.configError ∧
    (∀ n, Err.unboundLocal ≠ Err.fieldNotFound n) ∧
    Err.unboundLocal ≠ Err.notFound ∧
    Err.unboundLocal ≠ Err.remoteError := by
  refine ⟨?_, by simp, fun n => by simp, by simp, by simp⟩
  simp [addSystemFields, h1, h2]

/-- C10 witness: on a freshly constructed (blank) job the call fails
with the unbound-local error and leaves the job blank. -/
theorem add_system_fields_unbound_local_witness :
    addSystemFields [] [] none BLANK_JOB = (.error .unboundLocal, BLANK_JOB) :=
  (add_system_fields_unbound_local [] [] none BLANK_JOB (by decide)
    (by decide)).1

/-- C2: for every non-activity object kind, `get_fields` pages with an
offset starting at 0 and incrementing by exactly one per page while the
response reports `hasMore`, and returns the concatenation of all pages'
item lists in fetch order - both when the kind is passed explicitly and
when it is taken from the job; for the `activities` kind it returns the
static table's entry for `activity_type` and its result does not depend
on the page oracle or the fuel (no network request is issued). -/
theorem get_fields_pagination_and_activity_table :
    (∀ (actTable : String → Option (List FieldDef))
       (reqPage : Nat → Except Err FieldPage) (pages : Nat → FieldPage)
       (fuel n : Nat) (elq_object : String) (obj_id : Option Nat)
       (act_type : Option String) (job : Job),
        elq_object ≠ "activities" →
        (∀ i, i ≤ n → reqPage i = .ok (pages i)) →
        (∀ i, i < n → (pages i).hasMore = true) →
        (pages n).hasMore = false →
        n < fuel →
        getFields actTable reqPage fuel (some elq_object) obj_id act_type job =
          some (.ok (((List.range (n + 1)).map
            (fun i => (pages i).items)).flatten))) ∧
    (∀ (actTable : String → Option (List FieldDef))
       (reqPage : Nat → Except Err FieldPage) (pages : Nat → FieldPage)
       (fuel n : Nat) (obj_id : Option Nat) (act_type : Option String)
       (job : Job),
        job.elq_object ≠ some "activities" →
        (∀ i, i ≤ n → reqPage i = .ok (pages i)) →
        (∀ i, i < n → (pages i).hasMore = true) →
        (pages n).hasMore = false →
        n < fuel →
        getFields actTable reqPage fuel none obj_id act_type job =
          some (.ok (((List.range (n + 1)).map
            (fun i => (pages i).items)).flatten))) ∧
    (∀ (actTable : String → Option (List FieldDef))
       (reqPage reqPage2 : Nat → Except Err FieldPage) (fuel fuel2 : Nat)
       (obj_id : Option Nat) (t : String) (flds : List FieldDef) (job : Job),
        actTable t = some flds →
        getFields actTable reqPage fuel (some "activities") obj_id (some t)
            job = some (.ok flds) ∧
        getFields actTable reqPage fuel (some "activities") obj_id (some t)
            job =
          getFields actTable reqPage2 fuel2 (some "activities") obj_id
            (some t) job) := by
  refine ⟨?_, ?_, ?_⟩
  · intro actTable reqPage pages fuel n elq obj_id act_type job hne hreq hmore
      hlast hfuel
    have hloop := getFieldsLoop_concat reqPage pages n 0 fuel
      (fun i hi => by simpa using hreq i hi)
      (fun i hi => by simpa using hmore i hi)
      (by simpa using hlast) hfuel
    have hg : getFields actTable reqPage fuel (some elq) obj_id act_type job =
        getFieldsLoop reqPage fuel 0 := by
      simp [getFields, hne]
    rw [hg]
    simpa using hloop
  · intro actTable reqPage pages fuel n obj_id act_type job hne hreq hmore
      hlast hfuel
    have hloop := getFieldsLoop_concat reqPage pages n 0 fuel
      (fun i hi => by simpa using hreq i hi)
      (fun i hi => by simpa using hmore i hi)
      (by simpa using hlast) hfuel
    have hg : getFields actTable reqPage fuel none obj_id act_type job =
        getFieldsLoop reqPage fuel 0 := by
      simp [getFields, hne]
    rw [hg]
    simpa using hloop
  · intro actTable reqPage reqPage2 fuel fuel2 obj_id t flds job hAct
    constructor
    · simp [getFields, hAct]
    · simp [getFields, hAct]

/-- C2 witness: with pages 0 and 1 reporting `hasMore` and page 2 not,
the three pages' items are concatenated in fetch order; an activity
lookup returns the table entry. -/
theorem get_fields_pagination_and_activity_table_witness :
    getFields exActTable exReqPage 3 (some "contacts") none none BLANK_JOB =
      some (.ok [⟨"f0", "F 0", "S0"⟩, ⟨"f1", "F 1", "S1"⟩,
                 ⟨"f2", "F 2", "S2"⟩]) ∧
    getFields exActTable2 exReqPage 1 (some "activities") none
        (some "EmailOpen") BLANK_JOB = some (.ok exCatalog) := by
  constructor
  · have h := get_fields_pagination_and_activity_table.1 exActTable exReqPage
      exPages 3 2 "contacts" none none BLANK_JOB (by decide) (fun i _ => rfl)
      (fun i hi => by
        simp only [exPages]
        exact decide_eq_true hi)
      (by decide) (by decide)
    exact h.trans rfl
  · exact (get_fields_pagination_and_activity_table.2.2 exActTable2 exReqPage
      exReqPage 1 1 none "EmailOpen" exCatalog BLANK_JOB (by decide)).1

/-- A successful `add_fields` name resolution returns, name by name,
every matching catalog entry in catalog order. -/
lemma resolveFields_ok_eq (activities : Bool) (names : List String)
    (catalog : List FieldDef) (out : List FieldDef)
    (h : resolveFields activities names catalog = .ok out) :
    out = (names.map
      (fun n => catalog.filter (fieldMatches activities n))).flatten := by
  induction names generalizing out with
  | nil =>
    simp [resolveFields] at h
    simp [h.symm]
  | cons n rest ih =>
    simp only [resolveFields, scanFields_eq] at h
    by_cases hany : catalog.any (fieldMatches activities n) = true
    · rw [if_pos hany] at h
      cases hr : resolveFields activities rest catalog with
      | error e => rw [hr] at h; cases h
      | ok out2 =>
        rw [hr] at h
        cases h
        simp [ih out2 hr]
    · rw [if_neg hany] at h
      cases h

/-- C3: `add_fields` matches each caller name against the catalog by
case-sensitive exact equality with `internalName` or `name` (`name`
only when the job's kind is `activities`), and every matching catalog
entry is appended, in catalog order, with no deduplication: on success
the job gains, name by name, the full filtered match list. -/
theorem add_fields_appends_every_match
    (actTable : String → Option (List FieldDef))
    (reqPage : Nat → Except Err FieldPage) (fuel : Nat)
    (names : List String) (job job' : Job) (catalog : List FieldDef)
    (hcat : getFields actTable reqPage fuel none none none job =
      some (.ok catalog))
    (hok : addFields actTable reqPage fuel (some names) job =
      some (.ok (), job')) :
    job'.fields = job.fields ++
      (names.map (fun n =>
        catalog.filter (fun f =>
          if job.elq_object == some "activities" then n == f.name
          else n == f.internalName || n == f.name))).flatten := by
  simp only [addFields, hcat] at hok
  cases hres : resolveFields (job.elq_object == some "activities") names
      catalog with
  | error e => rw [hres] at hok; cases hok
  | ok out =>
    rw [hres] at hok
    cases hok
    have hout := resolveFields_ok_eq _ _ _ _ hres
    have hfun : (fun n => catalog.filter
          (fieldMatches (job.elq_object == some "activities") n)) =
        (fun n => catalog.filter (fun f =>
          if job.elq_object == some "activities" then n == f.name
          else n == f.internalName || n == f.name)) := by
      funext n
      congr 1
      funext f
      by_cases hact : (job.elq_object == some "activities") = true <;>
        simp [fieldMatches, hact]
    simp only [hout, hfun]

/-- C3 witness: one caller name matching two catalog entries (same
display name) appends both entries, in catalog order. -/
theorem add_fields_appends_every_match_witness :
    exJobContactsAfter.fields = exJobContacts.fields ++ exCatalogDup :=
  (add_fields_appends_every_match exActTable exReqPageDup 1 ["Email Address"]
    exJobContacts exJobContactsAfter exCatalogDup rfl rfl).trans rfl

/-- C4: when a caller name matches zero catalog entries, `add_fields`
fails with FieldNotFoundError naming an unmatched name from the call,
and the job - including fields appended by prior successful calls - is
returned unchanged: the failed call commits nothing. -/
theorem add_fields_not_found_leaves_job_unchanged
    (actTable : String → Option (List FieldDef))
    (reqPage : Nat → Except Err FieldPage) (fuel : Nat)
    (names : List String) (job : Job) (catalog : List FieldDef) (n : String)
    (hcat : getFields actTable reqPage fuel none none none job =
      some (.ok catalog))
    (hn : n ∈ names)
    (hzero : catalog.filter
      (fieldMatches (job.elq_object == some "activities") n) = []) :
    ∃ m ∈ names,
      catalog.filter (fieldMatches (job.elq_object == some "activities") m)
        = [] ∧
      addFields actTable reqPage fuel (some names) job =
        some (.error (.fieldNotFound m), job) := by
  have hany : catalog.any
      (fieldMatches (job.elq_object == some "activities") n) = false := by
    rw [List.any_eq_false]
    exact List.filter_eq_nil_iff.mp hzero
  obtain ⟨m, hm, hzm, hres⟩ :=
    resolveFields_err (job.elq_object == some "activities") names catalog n
      hn hany
  refine ⟨m, hm, List.filter_eq_nil_iff.mpr (List.any_eq_false.mp hzm), ?_⟩
  simp only [addFields, hcat, hres]

/-- C4 witness: `add_fields(["nonexistent"])` fails naming `nonexistent`
and leaves the job exactly as it was. -/
theorem add_fields_not_found_leaves_job_unchanged_witness :
    addFields exActTable exReqPageDup 1 (some ["nonexistent"])
      exJobContacts = some (.error (.fieldNotFound "nonexistent"),
        exJobContacts) := by
  obtain ⟨m, hm, _, heq⟩ :=
    add_fields_not_found_leaves_job_unchanged exActTable exReqPageDup 1
      ["nonexistent"] exJobContacts exCatalogDup "nonexistent" rfl
      (by simp) (by decide)
  have hme : m = "nonexistent" := by simpa using hm
  subst hme
  exact heq

/-- Replacing one single-character pattern by a single-character
replacement is a character map. -/
lemma replaceAux_single (a b : Char) :
    ∀ l : List Char,
      replaceAux [a] [b] l 0 = l.map (fun c => if c = a then b else c) := by
  intro l
  induction l with
  | nil => rfl
  | cons c cs ih =>
    by_cases h : c = a
    · subst h
      simp [replaceAux, List.isPrefixOf, ih]
    · have hb : (a == c) = false := by
        simp only [beq_eq_false_iff_ne]
        exact fun e => h e.symm
      simp [replaceAux, List.isPrefixOf, hb, h, ih]

/-- C6: every filter `filter_exists_list` appends - on either the
ID-based or the name-based path - is exactly the string
` EXISTS('<statement>') ` (leading and trailing single space) with the
resolved list's statement interpolated verbatim, appended at the end of
the job's filters. -/
theorem filter_exists_list_appends_exists_pattern :
    (∀ (listById : Nat → Except Err ListRec)
       (listSearch : String → Except Err (List ListRec))
       (lid : Nat) (r : ListRec) (job : Job),
        listById lid = .ok r →
        filterExistsList listById listSearch (some lid) none job =
          (.ok (), { job with filters :=
            job.filters ++ [" EXISTS('" ++ r.statement ++ "') "] })) ∧
    (∀ (listById : Nat → Except Err ListRec)
       (listSearch : String → Except Err (List ListRec))
       (nm : String) (r : ListRec) (rest : List ListRec) (job : Job),
        listSearch (pyStarName nm) = .ok (r :: rest) →
        filterExistsList listById listSearch none (some nm) job =
          (.ok (), { job with filters :=
            job.filters ++ [" EXISTS('" ++ r.statement ++ "') "] })) := by
  constructor
  · intro listById listSearch lid r job h
    simp [filterExistsList, h]
  · intro listById listSearch nm r rest job h
    simp [filterExistsList, h]

/-- C6 witness: a list whose statement is `\x7b\x7bContactList[1]\x7d\x7d`
yields exactly the fixture filter string as the job's last filter. -/
theorem filter_exists_list_appends_exists_pattern_witness :
    (filterExistsList exListById exListSearch (some 1) none
      exJobContacts).2.filters.getLast? =
        some " EXISTS('\x7b\x7bContactList[1]\x7d\x7d') " := by
  have h := filter_exists_list_appends_exists_pattern.1 exListById
    exListSearch 1 exListRec exJobContacts rfl
  rw [h]
  rfl

/-- C7: the name-based `filter_exists_list` queries the search oracle
with the given name after replacing every space by `*` (and consults it
at no other query), and produces the same result as the ID-based lookup
whenever both resolve to the same record. -/
theorem filter_exists_list_by_name_star_query :
    pyStarName "Test List 1" = "Test*List*1" ∧
    (∀ nm : String, (pyStarName nm).data =
        nm.data.map (fun c => if c = ' ' then '*' else c)) ∧
    (∀ (listById : Nat → Except Err ListRec)
       (s1 s2 : String → Except Err (List ListRec)) (nm : String) (job : Job),
        s1 (pyStarName nm) = s2 (pyStarName nm) →
        filterExistsList listById s1 none (some nm) job =
          filterExistsList listById s2 none (some nm) job) ∧
    (∀ (listById : Nat → Except Err ListRec)
       (listSearch : String → Except Err (List ListRec)) (lid : Nat)
       (nm : String) (r : ListRec) (rest : List ListRec) (job : Job),
        listById lid = .ok r →
        listSearch (pyStarName nm) = .ok (r :: rest) →
        filterExistsList listById listSearch (some lid) none job =
          filterExistsList listById listSearch none (some nm) job) := by
  refine ⟨by decide, ?_, ?_, ?_⟩
  · intro nm
    simp [pyStarName, pyReplace, replaceAux_single]
  · intro listById s1 s2 nm job h
    simp only [filterExistsList, h]
  · intro listById listSearch lid nm r rest job hid hsearch
    simp [filterExistsList, hid, hsearch]

/-- C7 witness: looking up list 1 by ID and looking up
`"Test List 1"` by name (searched as `Test*List*1`) produce identical
results when both resolve to the fixture record. -/
theorem filter_exists_list_by_name_star_query_witness :
    filterExistsList exListById exListSearch (some 1) none exJobContacts =
      filterExistsList exListById exListSearch none (some "Test List 1")
        exJobContacts :=
  filter_exists_list_by_name_star_query.2.2.2 exListById exListSearch 1
    "Test List 1" exListRec [] exJobContacts rfl rfl

/-- C8 counterexample: with a name given and a search returning zero
results, both `filter_exists_list` and `add_leadscore_fields` fail with
the unguarded index error of `items[0]` on an empty list - not with
NotFoundError as the claim states. -/
theorem filter_zero_results_raise_index_error :
    filterExistsList exListById exEmptyListSearch none (some "Nope")
      BLANK_JOB = (.error .indexError, BLANK_JOB) ∧
    addLeadscoreFields exModelById exEmptyModelSearch none (some "Nope")
      BLANK_JOB = (.error .indexError, BLANK_JOB) ∧
    Err.indexError ≠ Err.notFound :=
  ⟨rfl, rfl, by decide⟩

/-- C8 amended: with neither argument of the either/or pair,
`filter_exists_list` and `add_leadscore_fields` fail with
ConfigurationError leaving the job unchanged; with only a name and a
search returning zero results they fail with the index error of taking
the first item of an empty result list (not NotFoundError), also leaving
the job unchanged. -/
theorem either_or_required_and_empty_search_fails :
    (∀ (listById : Nat → Except Err ListRec)
       (listSearch : String → Except Err (List ListRec)) (job : Job),
        filterExistsList listById listSearch none none job =
          (.error .configError, job)) ∧
    (∀ (modelById : Nat → Except Err ScoreModel)
       (modelSearch : String → Except Err (List ScoreModel)) (job : Job),
        addLeadscoreFields modelById modelSearch none none job =
          (.error .configError, job)) ∧
    (∀ (listById : Nat → Except Err ListRec)
       (listSearch : String → Except Err (List ListRec)) (nm : String)
       (job : Job),
        listSearch (pyStarName nm) = .ok [] →
        filterExistsList listById listSearch none (some nm) job =
          (.error .indexError, job)) ∧
    (∀ (modelById : Nat → Except Err ScoreModel)
       (modelSearch : String → Except Err (List ScoreModel)) (nm : String)
       (job : Job),
        modelSearch (pyStarName nm) = .ok [] →
        addLeadscoreFields modelById modelSearch none (some nm) job =
          (.error .indexError, job)) := by
  refine ⟨fun _ _ _ => rfl, fun _ _ _ => rfl, ?_, ?_⟩
  · intro listById listSearch nm job h
    simp [filterExistsList, h]
  · intro modelById modelSearch nm job h
    simp [addLeadscoreFields, h]

/-- C8 witness: both operations with neither argument fail with
ConfigurationError on a blank job, and by-name lookups that find nothing
fail with the index error; the job is unchanged in all four cases. -/
theorem either_or_required_and_empty_search_fails_witness :
    filterExistsList exListById exEmptyListSearch none none BLANK_JOB =
      (.error .configError, BLANK_JOB) ∧
    addLeadscoreFields exModelById exEmptyModelSearch none none BLANK_JOB =
      (.error .configError, BLANK_JOB) ∧
    filterExistsList exListById exEmptyListSearch none (some "No Such List")
      BLANK_JOB = (.error .indexError, BLANK_JOB) ∧
    addLeadscoreFields exModelById exEmptyModelSearch none
      (some "No Such Model") BLANK_JOB = (.error .indexError, BLANK_JOB) :=
  ⟨either_or_required_and_empty_search_fails.1 exListById exEmptyListSearch
      BLANK_JOB,
   either_or_required_and_empty_search_fails.2.1 exModelById
      exEmptyModelSearch BLANK_JOB,
   either_or_required_and_empty_search_fails.2.2.1 exListById
      exEmptyListSearch "No Such List" BLANK_JOB rfl,
   either_or_required_and_empty_search_fails.2.2.2 exModelById
      exEmptyModelSearch "No Such Model" BLANK_JOB rfl⟩

/-- C1 counterexample: when two caller names resolve to the same catalog
entry (here its internal and its display name), the in-place rewrite is
applied twice to the shared record, so both appended fields carry a
double substitution - not the textual substitution the (contacts,
customobjects) rule determines, which `rewriteStmt` computes. -/
theorem add_linked_fields_double_substitution :
    (addLinkedFieldsCore "contacts" ["C_EmailAddress", "Email Address"]
      exCatalog exJob).2.2.fields.map (fun f => f.statement) =
        ["CustomObject[5].CustomObject[5].Contact.Field[Email Address]",
         "CustomObject[5].CustomObject[5].Contact.Field[Email Address]"] ∧
    rewriteStmt "contacts" exJob.elq_object exJob.obj_id
        "Contact.Field[Email Address]" =
      "CustomObject[5].Contact.Field[Email Address]" ∧
    ("CustomObject[5].CustomObject[5].Contact.Field[Email Address]" :
        String) ≠ "CustomObject[5].Contact.Field[Email Address]" :=
  ⟨by decide, by decide, by decide⟩

/-- C1 amended: provided no catalog entry is resolved more than once,
every field `add_linked_fields` appends is the resolved catalog record
with its statement rewritten exactly once by the substitution the
(linked kind, current kind) pair determines - `Contact.` to
`CustomObject[<parent_id>].Contact.` for (contacts, customobjects),
`Contact.` to `Event[<parent_id>].Contact.` for (contacts, events),
`Account.` to `Contact.Account.` for linked `accounts` - and for every
other pair the statement is left unchanged.  (A record resolved k times
gets the substitution applied k times, since the rewrite mutates the
shared record in place.) -/
theorem add_linked_fields_statement_rewrite (lnk_obj : String)
    (field_input : List String) (fields : List FieldDef) (job : Job)
    (idxs : List Nat)
    (hres : resolveFieldsIdx field_input fields = .ok idxs)
    (hnodup : idxs.Nodup) :
    ((addLinkedFieldsCore lnk_obj field_input fields job).1 = .ok ()) ∧
    ((addLinkedFieldsCore lnk_obj field_input fields job).2.2.fields =
      job.fields ++ (idxs.filterMap (fun i => fields[i]?)).map
        (fun f => { f with
          statement := rewriteStmt lnk_obj job.elq_object job.obj_id
            f.statement })) ∧
    (∀ (lnk : String) (cur : Option String) (oid : Option Nat) (s : String),
        lnk ≠ "contacts" → lnk ≠ "accounts" → rewriteStmt lnk cur oid s = s) ∧
    (∀ (cur : Option String) (oid : Option Nat) (s : String),
        cur ≠ some "customobjects" → cur ≠ some "events" →
        rewriteStmt "contacts" cur oid s = s) := by
  refine ⟨?_, ?_, ?_, ?_⟩
  · simp [addLinkedFieldsCore, hres]
  · simp only [addLinkedFieldsCore, hres]
    congr 1
    rw [List.map_filterMap]
    apply List.filterMap_congr
    intro i hi
    exact applyRewrites_getElem_mem _ _ _ idxs hnodup fields i hi
  · intro lnk cur oid s h1 h2
    have b1 : (lnk == "contacts") = false := by
      simp [beq_eq_false_iff_ne, h1]
    have b2 : (lnk == "accounts") = false := by
      simp [beq_eq_false_iff_ne, h2]
    simp [rewriteStmt, b1, b2]
  · intro cur oid s h1 h2
    have b1 : (cur == some "customobjects") = false := by
      simp [beq_eq_false_iff_ne, h1]
    have b2 : (cur == some "events") = false := by
      simp [beq_eq_false_iff_ne, h2]
    simp [rewriteStmt, b1, b2]

/-- C1 witness: the spec's own example -
`add_linked_fields("contacts", ["Email Address"])` on a customobjects
job with parent_id 5 appends the field with statement
`CustomObject[5].Contact.Field[Email Address]`. -/
theorem add_linked_fields_statement_rewrite_witness :
    (addLinkedFieldsCore "contacts" ["Email Address"] exCatalog
      exJob).2.2.fields = exJob.fields ++
        [⟨"C_EmailAddress", "Email Address",
          "CustomObject[5].Contact.Field[Email Address]"⟩] :=
  ((add_linked_fields_statement_rewrite "contacts" ["Email Address"]
    exCatalog exJob [0] rfl (by simp)).2.1).trans rfl

/-- C9 counterexample: after
`add_linked_fields("contacts", ["Email Address"])` on a customobjects
job, the fetched field list's record no longer holds its original
statement - the rewrite was applied to the record itself, not to a deep
copy. -/
theorem add_linked_fields_source_catalog_mutated :
    (addLinkedFieldsCore "contacts" ["Email Address"] exCatalog
      exJob).2.1.map (fun f => f.statement) =
        ["CustomObject[5].Contact.Field[Email Address]"] ∧
    exCatalog.map (fun f => f.statement) = ["Contact.Field[Email Address]"] ∧
    ("CustomObject[5].Contact.Field[Email Address]" : String) ≠
      "Contact.Field[Email Address]" :=
  ⟨by decide, by decide, by decide⟩

/-- C9 amended: `add_linked_fields` makes no copy: the statement rewrite
mutates each resolved record of the fetched field list in place, so
after the call the fetched list holds the rewritten statement at every
resolved position (exactly the rewrite of the original record when no
entry is resolved twice), holds the untouched original at every other
position, and `Job.fields` receives those same post-call records. -/
theorem add_linked_fields_in_place_mutation (lnk_obj : String)
    (field_input : List String) (fields : List FieldDef) (job : Job)
    (idxs : List Nat)
    (hres : resolveFieldsIdx field_input fields = .ok idxs)
    (hnodup : idxs.Nodup) :
    (∀ i, i ∉ idxs →
      (addLinkedFieldsCore lnk_obj field_input fields job).2.1[i]? =
        fields[i]?) ∧
    (∀ i ∈ idxs,
      (addLinkedFieldsCore lnk_obj field_input fields job).2.1[i]? =
        (fields[i]?).map (fun f => { f with
          statement := rewriteStmt lnk_obj job.elq_object job.obj_id
            f.statement })) ∧
    ((addLinkedFieldsCore lnk_obj field_input fields job).2.2.fields =
      job.fields ++ idxs.filterMap
        (fun i =>
          (addLinkedFieldsCore lnk_obj field_input fields job).2.1[i]?)) := by
  refine ⟨?_, ?_, ?_⟩
  · intro i hi
    simp only [addLinkedFieldsCore, hres]
    exact applyRewrites_getElem_not_mem _ _ _ idxs fields i hi
  · intro i hi
    simp only [addLinkedFieldsCore, hres]
    exact applyRewrites_getElem_mem _ _ _ idxs hnodup fields i hi
  · simp only [addLinkedFieldsCore, hres]

/-- C9 witness: the fetched list's record at position 0 carries the
rewritten statement after the call. -/
theorem add_linked_fields_in_place_mutation_witness :
    (addLinkedFieldsCore "contacts" ["Email Address"] exCatalog
      exJob).2.1[0]? = some ⟨"C_EmailAddress", "Email Address",
        "CustomObject[5].Contact.Field[Email Address]"⟩ :=
  ((add_linked_fields_in_place_mutation "contacts" ["Email Address"]
    exCatalog exJob [0] rfl (by simp)).2.1 0 (by simp)).trans rfl
